import Mathlib

/-!
Verification of the datapane processors API (`datapane/processors/api.py`).

The public entry points (`build_report`, `save_report`, `stringify_report`,
`upload_report`) are embedded from the source.  The collaborating modules
(`processors.py`, `types.py`, `file_store.py`, `datapane.common`) are not part
of the provided sources; where a definition comes from the specification
rather than from source code its doc comment says so explicitly.

Paths are modelled as lists of components with the innermost component first,
so `name :: dest` is the Lean rendering of `Path(dest) / name`.
-/

namespace Datapane

/-- A filesystem node: a directory, or a regular file with textual content. -/
inductive FSNode
| dir
| file (content : String)
deriving DecidableEq, Repr

/-- A path, innermost component first (`["assets", "app", "d"]` is `/d/app/assets`). -/
abbrev DirPath := List String

/-- A filesystem: an association list from paths to nodes (first binding wins). -/
abbrev FS := List (DirPath × FSNode)

/-- Look up the node stored at a path. -/
def fsGet (fs : FS) (p : DirPath) : Option FSNode :=
  (fs.find? (fun kv => kv.1 == p)).map (fun kv => kv.2)

/-- `Path.is_dir()`: the path is the root, or is bound to a directory node. -/
def isDirFS (fs : FS) (p : DirPath) : Bool :=
  p.isEmpty || decide (fsGet fs p = some FSNode.dir)

/-- `p` lies inside the subtree rooted at `base` (including `base` itself):
with innermost-first paths, `base` is a suffix of `p`. -/
def pathInside (base : DirPath) (p : DirPath) : Bool :=
  base == p ||
    match p with
    | [] => false
    | _ :: rest => pathInside base rest

/-- `shutil.rmtree`: remove a path and everything inside it. -/
def rmtree (fs : FS) (p : DirPath) : FS :=
  fs.filter (fun kv => !(pathInside p kv.1))

/-- Raw OS errors surfaced by directory creation. -/
inductive OSErr
| fileExists
| fileNotFound
| notADirectory
deriving DecidableEq, Repr

/-- `os.mkdir`: fails if the path exists, if the parent is missing, or if the
parent is a regular file; otherwise records a new directory node. -/
def osMkdir (fs : FS) (p : DirPath) : Except OSErr FS :=
  match p with
  | [] => .error .fileExists
  | _ :: parent =>
    if (fsGet fs p).isSome then .error .fileExists
    else if parent.isEmpty then .ok ((p, FSNode.dir) :: fs)
    else
      match fsGet fs parent with
      | some .dir => .ok ((p, FSNode.dir) :: fs)
      | some (.file _) => .error .notADirectory
      | none => .error .fileNotFound

/-- `pathlib.Path.mkdir(parents=..., exist_ok=...)`, with fuel for the
recursion on parents.  On error the filesystem reached so far is returned,
since partially created parents persist in Python. -/
def mkdirParentsAux : Nat → FS → DirPath → Bool → (Option OSErr) × FS
| 0, fs, _, _ => (some .fileNotFound, fs)
| fuel + 1, fs, p, existOk =>
  match osMkdir fs p with
  | .ok fs2 => (none, fs2)
  | .error .fileNotFound =>
    match p with
    | [] => (some .fileNotFound, fs)
    | _ :: parent =>
      match mkdirParentsAux fuel fs parent true with
      | (some e, fs2) => (some e, fs2)
      | (none, fs2) =>
        match osMkdir fs2 p with
        | .ok fs3 => (none, fs3)
        | .error e => if existOk && isDirFS fs2 p then (none, fs2) else (some e, fs2)
  | .error e => if existOk && isDirFS fs p then (none, fs) else (some e, fs)

/-- `path.mkdir(parents=True)` as called by `build_report` (line 70). -/
def mkdirParents (fs : FS) (p : DirPath) : (Option OSErr) × FS :=
  mkdirParentsAux (p.length + 1) fs p false

/-- Modelled from the spec: the block tree is an external, opaque model (§3,
"the core only needs to walk it and recognize which nodes carry embeddable
binary payloads"); we model it minimally as a sequence of content nodes, each
either plain text or an embeddable binary payload. -/
inductive Block
| text (s : String)
| asset (payload : List Nat)
deriving DecidableEq, Repr

/-- The `Blocks` object passed to every public operation. -/
abbrev Blocks := List Block

/-- The file-entry strategy tags.  `B64FileEntry` and `GzipTmpFileEntry` are
the classes imported by `api.py`; `DirectFileEntry` is modelled from the spec
(§2: "A third strategy writes a raw file into a destination assets
directory"), which the operation table of the spec assigns to build-report. -/
inductive FileEntryKlass
| B64FileEntry
| GzipTmpFileEntry
| DirectFileEntry
deriving DecidableEq, Repr

/-- One registered asset: its stable name/reference (exactly what the
serialized document embeds), its payload, and, for the compressed-temporary
strategy, the temporary path holding it. -/
structure StoreEntry where
  name : String
  payload : List Nat
  tmpPath : Option DirPath
deriving DecidableEq, Repr

/-- One token of the XML-like intermediate document (flattened nested-tag
form); asset nodes appear as reference tokens. -/
inductive Tok
| openTag (tagName : String)
| closeTag (tagName : String)
| textTok (s : String)
| assetTok (ref : String)
deriving DecidableEq, Repr

/-- The asset references embedded in a serialized document. -/
def docRefs (doc : List Tok) : List String :=
  doc.filterMap (fun t =>
    match t with
    | .assetTok r => some r
    | _ => none)

/-- Modelled from the spec: `AppFormatting` (external `datapane.cloud_api`)
as used by `api.py`: a width enumeration value, the CSS text produced by
`to_css()`, and the `light_prose` flag. -/
structure AppFormatting where
  widthValue : String
  cssText : String
  light_prose : Bool
deriving DecidableEq, Repr

/-- `formatting.to_css()`. -/
def AppFormatting.to_css (f : AppFormatting) : String := f.cssText

/-- Modelled from the spec: the ambient session configuration (`config as c`)
read by `upload_report` via `c.config.is_org`. -/
structure Config where
  is_org : Bool
deriving DecidableEq, Repr

/-- The accumulated result carried by a `ViewState` (§3, `ResultUnion`):
nothing yet, the intermediate document plus the file store, final HTML text,
or the upload payload pair. -/
inductive VSResult
| empty
| xmlDoc (doc : List Tok) (entries : List StoreEntry)
| htmlText (html : String)
| payloadRes (doc : List Tok) (entries : List StoreEntry)
deriving DecidableEq, Repr

/-- `ViewState` (from `processors/types.py`, modelled from the spec §3/§4.2):
the block tree, the file-entry strategy fixed at construction, an optional
output directory, and the accumulated result. -/
structure ViewState where
  blocks : Blocks
  file_entry_klass : FileEntryKlass
  dir_path : Option DirPath := none
  result : VSResult := .empty
deriving DecidableEq, Repr

/-- Pipeline state: the `ViewState` plus the ambient filesystem, threaded so
so that the on-disk effects of each stage are explicit. -/
structure PState where
  vs : ViewState
  fs : FS
deriving DecidableEq, Repr

/-- Pipeline-stage failures (§7). -/
inductive PErr
| validationError (msg : String)
| internalError
| consistencyError
deriving DecidableEq, Repr

/-- The stages named by the pipelines of `api.py`. -/
inductive StageTag
| preProcessView
| convertXML
| exportHTMLFileAssets
| exportHTMLInlineAssets
| exportHTMLStringInlineAssets
| preUploadProcessor
deriving DecidableEq, Repr

/-- Whether a stage is a terminal export stage (§4.6). -/
def StageTag.isTerminal : StageTag → Bool
| .preProcessView => false
| .convertXML => false
| _ => true

/-- The payloads of the embeddable asset nodes, in document order. -/
def assetPayloads (blocks : Blocks) : List (List Nat) :=
  blocks.filterMap (fun b =>
    match b with
    | .asset bs => some bs
    | _ => none)

/-- Modelled from the spec: a deterministic pure encoding of a byte payload
into text, standing in for base64/gzip encoding. -/
def encodeBytes (bs : List Nat) : String :=
  String.intercalate "," (bs.map toString)

/-- Modelled from the spec: the stable reference assigned to the `i`-th
registered asset under each strategy (§4.3); the inline strategy yields a
self-contained encoded reference, the disk strategies a stable name. -/
def mkRef (klass : FileEntryKlass) (i : Nat) (bs : List Nat) : String :=
  match klass with
  | .B64FileEntry => "data:application/octet-stream;base64," ++ encodeBytes bs
  | .GzipTmpFileEntry => "asset-" ++ toString i ++ ".gz"
  | .DirectFileEntry => "asset-" ++ toString i

/-- The process-managed temporary location used by the compressed-temporary
strategy for the `i`-th asset. -/
def tmpStorePath (i : Nat) : DirPath :=
  ["asset-" ++ toString i ++ ".gz", "dptmp"]

/-- The store entry recorded for the `i`-th registered asset. -/
def mkEntry (klass : FileEntryKlass) (i : Nat) (bs : List Nat) : StoreEntry :=
  { name := mkRef klass i bs
    payload := bs
    tmpPath := match klass with
      | .GzipTmpFileEntry => some (tmpStorePath i)
      | _ => none }

/-- All store entries produced by registering `assets` in order. -/
def storeEntries (klass : FileEntryKlass) (assets : List (List Nat)) : List StoreEntry :=
  assets.enum.map (fun p => mkEntry klass p.1 p.2)

/-- Modelled from the spec: the on-disk writes performed by `register` (§4.3):
the inline strategy performs none, the compressed-temporary strategy writes
into the temporary namespace, the direct strategy writes into the supplied
assets directory. -/
def registerWrites (klass : FileEntryKlass) (dirPath : Option DirPath)
    (assets : List (List Nat)) : List (DirPath × FSNode) :=
  match klass with
  | .B64FileEntry => []
  | .GzipTmpFileEntry =>
      assets.enum.map (fun p => (tmpStorePath p.1, FSNode.file (encodeBytes p.2)))
  | .DirectFileEntry =>
      assets.enum.map (fun p =>
        (mkRef .DirectFileEntry p.1 p.2 :: dirPath.getD [], FSNode.file (encodeBytes p.2)))

/-- Serialize the blocks to document tokens, numbering asset registrations in
document order starting at `n`. -/
def blockToks (klass : FileEntryKlass) : Blocks → Nat → List Tok
| [], _ => []
| .text s :: bs, n => Tok.textTok s :: blockToks klass bs n
| .asset a :: bs, n => Tok.assetTok (mkRef klass n a) :: blockToks klass bs (n + 1)

/-- The intermediate serialized document for a block tree (§4.5). -/
def docTokens (klass : FileEntryKlass) (blocks : Blocks) : List Tok :=
  Tok.openTag "View" :: blockToks klass blocks 0 ++ [Tok.closeTag "View"]

/-- Modelled from the spec (§4.4): `PreProcessView` validates that the block
tree is well-formed (non-empty) and is otherwise side-effect-free. -/
def stagePreProcessView (s : PState) : (Option PErr) × PState :=
  if s.vs.blocks.isEmpty then (some (.validationError "empty view"), s) else (none, s)

/-- Modelled from the spec (§4.5): `ConvertXML` serializes the tree,
registering every embedded asset with the file store of the strategy, and stores
the document plus the store entries as the result. -/
def stageConvertXML (s : PState) : (Option PErr) × PState :=
  let k := s.vs.file_entry_klass
  let assets := assetPayloads s.vs.blocks
  (none,
    { vs := { s.vs with result := .xmlDoc (docTokens k s.vs.blocks) (storeEntries k assets) }
      fs := registerWrites k s.vs.dir_path assets ++ s.fs })

/-- The text of one document token inside the rendered HTML. -/
def tokText : Tok → String
| .openTag n => "<" ++ n ++ ">"
| .closeTag n => "</" ++ n ++ ">"
| .textTok s => s
| .assetTok r => "<asset src=\"" ++ r ++ "\"/>"

/-- The text of a whole token list. -/
def toksText : List Tok → String
| [] => ""
| t :: ts => tokText t ++ toksText ts

/-- Modelled from the spec: the HTML shell wrapping a serialized document,
with the document name and optional formatting CSS. -/
def renderHTML (docName : Option String) (fmt : Option AppFormatting)
    (doc : List Tok) : String :=
  "<html><head><title>" ++ docName.getD "Report" ++ "</title>"
    ++ (match fmt with
        | some f => "<style>" ++ f.to_css ++ "</style>"
        | none => "")
    ++ "</head><body>" ++ toksText doc ++ "</body></html>"

/-- Modelled from the spec (§4.6): the terminal file-based export relocates
every stored asset into the `assets` subdirectory (removing any temporary
copies) as one batch of filesystem updates. -/
def moveTmpEntries (entries : List StoreEntry) (assetsDir : DirPath) (fs : FS) : FS :=
  entries.map (fun e => (e.name :: assetsDir, FSNode.file (encodeBytes e.payload)))
    ++ fs.filter (fun kv => entries.all (fun e => decide (e.tmpPath ≠ some kv.1)))

/-- Modelled from the spec (§4.6): `ExportHTMLFileAssets` populates the
`assets` subdirectory from the file store and writes the HTML shell as
`index.html` in the app directory. -/
def stageExportHTMLFileAssets (appDir : DirPath) (buildName : String)
    (fmt : Option AppFormatting) (s : PState) : (Option PErr) × PState :=
  match s.vs.result with
  | .xmlDoc doc entries =>
    let assetsDir : DirPath := "assets" :: appDir
    let html := renderHTML (some buildName) fmt doc
    (none,
      { vs := { s.vs with result := .htmlText html }
        fs := (("index.html" :: appDir), FSNode.file html) :: moveTmpEntries entries assetsDir s.fs })
  | _ => (some .internalError, s)

/-- Modelled from the spec (§4.6): `ExportHTMLInlineAssets` writes the single
self-contained HTML document at the path given by the caller. -/
def stageExportHTMLInlineAssets (savePath : DirPath) (docName : String)
    (fmt : Option AppFormatting) (s : PState) : (Option PErr) × PState :=
  match s.vs.result with
  | .xmlDoc doc _ =>
    let html := renderHTML (some docName) fmt doc
    (none, { vs := { s.vs with result := .htmlText html }, fs := (savePath, FSNode.file html) :: s.fs })
  | _ => (some .internalError, s)

/-- Modelled from the spec (§4.6): `ExportHTMLStringInlineAssets` produces the
HTML text as the result, touching nothing on disk. -/
def stageExportHTMLStringInlineAssets (docName : Option String)
    (fmt : Option AppFormatting) (s : PState) : (Option PErr) × PState :=
  match s.vs.result with
  | .xmlDoc doc _ =>
    (none, { vs := { s.vs with result := .htmlText (renderHTML docName fmt doc) }, fs := s.fs })
  | _ => (some .internalError, s)

/-- The set-equality check between document references and attachment names. -/
def sameRefSet (xs ys : List String) : Bool :=
  decide (∀ x ∈ xs, x ∈ ys) && decide (∀ y ∈ ys, y ∈ xs)

/-- Modelled from the spec (§4.6): `PreUploadProcessor` returns the pair
(document text, attachment list) and fails with a consistency error unless
the attachment list contains exactly the references the document embeds. -/
def stagePreUploadProcessor (s : PState) : (Option PErr) × PState :=
  match s.vs.result with
  | .xmlDoc doc entries =>
    if sameRefSet (docRefs doc) (entries.map (fun e => e.name)) then
      (none, { vs := { s.vs with result := .payloadRes doc entries }, fs := s.fs })
    else (some .consistencyError, s)
  | _ => (some .internalError, s)

/-- The per-operation parameters the terminal stages close over in `api.py`. -/
structure StageEnv where
  appDir : DirPath := []
  buildName : String := ""
  savePath : DirPath := []
  docName : Option String := none
  formatting : Option AppFormatting := none
deriving Repr

/-- The stage function named by each tag. -/
def interpStage (env : StageEnv) : StageTag → PState → (Option PErr) × PState
| .preProcessView => stagePreProcessView
| .convertXML => stageConvertXML
| .exportHTMLFileAssets => stageExportHTMLFileAssets env.appDir env.buildName env.formatting
| .exportHTMLInlineAssets => stageExportHTMLInlineAssets env.savePath env.buildName env.formatting
| .exportHTMLStringInlineAssets => stageExportHTMLStringInlineAssets env.docName env.formatting
| .preUploadProcessor => stagePreUploadProcessor

/-- Modelled from the spec (§4.1): the `Pipeline` executor applies the stages
strictly in order and short-circuits on the first failure, keeping the state
reached at the failure. -/
def runStages (env : StageEnv) (tags : List StageTag) (s : PState) : (Option PErr) × PState :=
  tags.foldl
    (fun acc t =>
      match acc.1 with
      | some _ => acc
      | none => interpStage env t acc.2)
    (none, s)

/-- The stage list of `build_report` (api.py lines 74-80). -/
def build_report_stages : List StageTag :=
  [.preProcessView, .convertXML, .exportHTMLFileAssets]

/-- The stage list of `save_report` (api.py lines 100-106). -/
def save_report_stages : List StageTag :=
  [.preProcessView, .convertXML, .exportHTMLInlineAssets]

/-- The stage list of `stringify_report` (api.py lines 123-129). -/
def stringify_report_stages : List StageTag :=
  [.preProcessView, .convertXML, .exportHTMLStringInlineAssets]

/-- The stage list of `upload_report` (api.py line 186). -/
def upload_report_stages : List StageTag :=
  [.preProcessView, .convertXML, .preUploadProcessor]

/-- Render a path for an error message. -/
def pathStr (p : DirPath) : String :=
  String.intercalate "/" p.reverse

/-- The `DPClientError` message raised by `build_report` (api.py line 67). -/
def appExistsMsg (appDir : DirPath) : String :=
  "App exists at given path " ++ pathStr appDir ++ " -- set overwrite=True to allow overwrite"

/-- Failures of `build_report`: the client-level precondition error, a raw OS
error from directory creation, or a pipeline-stage failure. -/
inductive BuildErr
| dpClientError (msg : String)
| osError (e : OSErr)
| stageErr (e : PErr)
deriving DecidableEq, Repr

/-- The `ViewState` constructed by `build_report` (api.py line 73): blocks,
`file_entry_klass=GzipTmpFileEntry`, `dir_path=assets_dir`. -/
def buildReportViewState (blocks : Blocks) (assetsDir : DirPath) : ViewState :=
  { blocks := blocks, file_entry_klass := .GzipTmpFileEntry, dir_path := some assetsDir }

/-- The `ViewState` constructed by `save_report` (api.py line 99). -/
def saveReportViewState (blocks : Blocks) : ViewState :=
  { blocks := blocks, file_entry_klass := .B64FileEntry }

/-- The `ViewState` constructed by `stringify_report` (api.py line 122). -/
def stringifyViewState (blocks : Blocks) : ViewState :=
  { blocks := blocks, file_entry_klass := .B64FileEntry }

/-- The `ViewState` constructed by `upload_report` (api.py line 185). -/
def uploadReportViewState (blocks : Blocks) : ViewState :=
  { blocks := blocks, file_entry_klass := .GzipTmpFileEntry }

/-- The part of `build_report` after the destination checks (api.py lines
69-80): create `assets_dir` with parents, then run the pipeline. -/
def buildInner (blocks : Blocks) (buildName : String) (fmt : Option AppFormatting)
    (appDir : DirPath) (fs : FS) : (Except BuildErr Unit) × FS :=
  let assetsDir : DirPath := "assets" :: appDir
  match mkdirParents fs assetsDir with
  | (some e, fs2) => (.error (.osError e), fs2)
  | (none, fs2) =>
    let env : StageEnv := { appDir := appDir, buildName := buildName, formatting := fmt }
    match runStages env build_report_stages { vs := buildReportViewState blocks assetsDir, fs := fs2 } with
    | (some e, st) => (.error (.stageErr e), st.fs)
    | (none, st) => (.ok (), st.fs)

/-- `build_report` (api.py lines 41-80): destination checks, overwrite
removal or precondition error, assets-directory creation, then the pipeline.
The result pairs the outcome with the final filesystem. -/
def build_report (blocks : Blocks) (buildName : String) (dest : DirPath)
    (fmt : Option AppFormatting) (overwrite : Bool) (fs : FS) :
    (Except BuildErr Unit) × FS :=
  let appDir : DirPath := buildName :: dest
  let appExists := isDirFS fs appDir
  if appExists && overwrite then
    buildInner blocks buildName fmt appDir (rmtree fs appDir)
  else if appExists && !overwrite then
    (.error (.dpClientError (appExistsMsg appDir)), fs)
  else
    buildInner blocks buildName fmt appDir fs

/-- `save_report` (api.py lines 83-106). -/
def save_report (blocks : Blocks) (savePath : DirPath) (openFlag : Bool)
    (docName : String) (fmt : Option AppFormatting) (fs : FS) :
    (Except PErr Unit) × FS :=
  let env : StageEnv := { savePath := savePath, buildName := docName, formatting := fmt }
  match runStages env save_report_stages { vs := saveReportViewState blocks, fs := fs } with
  | (some e, st) => (.error e, st.fs)
  | (none, st) => (.ok (), st.fs)

/-- `stringify_report` (api.py lines 109-131): run the inline-string pipeline
and return the resulting HTML text. -/
def stringify_report (blocks : Blocks) (docName : Option String)
    (fmt : Option AppFormatting) (fs : FS) : (Except PErr String) × FS :=
  let env : StageEnv := { docName := docName, formatting := fmt }
  match runStages env stringify_report_stages { vs := stringifyViewState blocks, fs := fs } with
  | (some e, st) => (.error e, st.fs)
  | (none, st) =>
    match st.vs.result with
    | .htmlText h => (.ok h, st.fs)
    | _ => (.error .internalError, st.fs)

/-- A Python value as it appears in the upload kwargs dictionary. -/
inductive PyVal
| pnone
| pstr (s : String)
| pbool (b : Bool)
| plist (xs : List String)
deriving DecidableEq, Repr

/-- Modelled from the spec (§6): a value is empty when it is `None`, an empty
string, or an empty list; booleans are never empty. -/
def PyVal.isEmptyVal : PyVal → Bool
| .pnone => true
| .pstr s => s.isEmpty
| .pbool _ => false
| .plist xs => xs.isEmpty

/-- Modelled from the spec (§6, "Empty/absent optional metadata fields must
be omitted from the payload rather than sent as empty values"):
`dict_drop_empty` (from `datapane.common`, not in the provided sources)
removes every entry whose value is empty. -/
def dict_drop_empty (xs : List (String × PyVal)) : List (String × PyVal) :=
  xs.filter (fun kv => !(kv.2.isEmptyVal))

/-- Look up a key in a kwargs dictionary. -/
def kwLookup (k : String) (kw : List (String × PyVal)) : Option PyVal :=
  (kw.find? (fun kv => kv.1 == k)).map (fun kv => kv.2)

/-- The `style_header` value computed by `upload_report` (api.py lines
177-179): the CSS is wrapped in a `<style>` tag exactly when the ambient
configuration says this is an organisation account. -/
def styleHeaderVal (cfg : Config) (f : AppFormatting) : String :=
  if cfg.is_org then "<style type=\"text/css\">\n" ++ f.to_css ++ "\n</style>" else f.to_css

/-- The kwargs dictionary assembled by `upload_report` before stripping
(api.py lines 165-181): the metadata fields, then, when formatting is
supplied, the width, style-header and light-prose fields. -/
def uploadKwargsRaw (docName description source_url : String)
    (publicly_visible : Option Bool) (tags : Option (List String))
    (project : Option String) (fmt : Option AppFormatting) (cfg : Config) :
    List (String × PyVal) :=
  [("name", PyVal.pstr docName),
   ("description", PyVal.pstr description),
   ("tags", PyVal.plist (tags.getD [])),
   ("source_url", PyVal.pstr source_url),
   ("publicly_visible", match publicly_visible with
     | some b => PyVal.pbool b
     | none => PyVal.pnone),
   ("project", match project with
     | some s => PyVal.pstr s
     | none => PyVal.pnone)]
  ++ (match fmt with
      | some f =>
        [("width", PyVal.pstr f.widthValue),
         ("style_header", PyVal.pstr (styleHeaderVal cfg f)),
         ("is_light_prose", PyVal.pbool f.light_prose)]
      | none => [])

/-- The kwargs dictionary actually posted: the raw dictionary with empty
values stripped (api.py line 183). -/
def uploadKwargs (docName description source_url : String)
    (publicly_visible : Option Bool) (tags : Option (List String))
    (project : Option String) (fmt : Option AppFormatting) (cfg : Config) :
    List (String × PyVal) :=
  dict_drop_empty
    (uploadKwargsRaw docName description source_url publicly_visible tags project fmt cfg)

/-- The payload `upload_report` hands to `Report.post_with_files` (api.py
lines 189-190): the serialized document, the attachment list, the stripped
kwargs, and the overwrite flag. -/
structure UploadPayload where
  document : List Tok
  attachments : List StoreEntry
  kwargs : List (String × PyVal)
  overwrite : Bool
deriving DecidableEq, Repr

/-- `upload_report` (api.py lines 134-199), up to the point where the payload
is handed to the remote post; the remote call itself is an external
collaborator. -/
def upload_report (blocks : Blocks) (docName description source_url : String)
    (publicly_visible : Option Bool) (tags : Option (List String))
    (project : Option String) (fmt : Option AppFormatting) (overwrite : Bool)
    (cfg : Config) (fs : FS) : (Except PErr UploadPayload) × FS :=
  let kw := uploadKwargs docName description source_url publicly_visible tags project fmt cfg
  match runStages {} upload_report_stages { vs := uploadReportViewState blocks, fs := fs } with
  | (some e, st) => (.error e, st.fs)
  | (none, st) =>
    match st.vs.result with
    | .payloadRes doc entries =>
      (.ok { document := doc, attachments := entries, kwargs := kw, overwrite := overwrite }, st.fs)
    | _ => (.error .internalError, st.fs)

end Datapane

namespace Datapane

/-! ### Helper lemmas about the filesystem model -/

theorem fsGet_cons (q : DirPath) (n : FSNode) (fs : FS) (p : DirPath) :
    fsGet ((q, n) :: fs) p = if q == p then some n else fsGet fs p := by
  by_cases h : q == p <;> simp [fsGet, List.find?, h]

theorem pathInside_self (b : DirPath) : pathInside b b = true := by
  cases b <;> simp [pathInside]

theorem pathInside_le_length (b p : DirPath) (h : pathInside b p = true) :
    b.length ≤ p.length := by
  induction p with
  | nil =>
    rw [pathInside] at h
    simp at h
    simp [h]
  | cons x xs ih =>
    rw [pathInside] at h
    rcases Bool.or_eq_true_iff.mp h with h1 | h2
    · have : b = x :: xs := by simpa using h1
      simp [this]
    · have := ih h2
      simp
      omega

theorem pathInside_cons_self (x : String) (p : DirPath) :
    pathInside (x :: p) p = false := by
  by_contra h
  have h2 : pathInside (x :: p) p = true := by
    revert h; cases pathInside (x :: p) p <;> simp
  have := pathInside_le_length _ _ h2
  rw [List.length_cons] at this
  omega

theorem fsGet_rmtree (fs : FS) (b p : DirPath) :
    fsGet (rmtree fs b) p = if pathInside b p then none else fsGet fs p := by
  induction fs with
  | nil => simp [rmtree, fsGet]
  | cons kv fs ih =>
    obtain ⟨q, n⟩ := kv
    by_cases hq : pathInside b q
    · have : rmtree ((q, n) :: fs) b = rmtree fs b := by
        simp [rmtree, List.filter, hq]
      rw [this, ih]
      by_cases hp : pathInside b p
      · simp [hp]
      · have hqp : (q == p) = false := by
          by_cases h : q = p
          · subst h; rw [hq] at hp; simp at hp
          · simp [h]
        simp [hp, fsGet_cons, hqp]
    · have hq2 : pathInside b q = false := by
        revert hq; cases pathInside b q <;> simp
      have : rmtree ((q, n) :: fs) b = (q, n) :: rmtree fs b := by
        simp [rmtree, List.filter, hq2]
      rw [this, fsGet_cons, fsGet_cons, ih]
      by_cases h : q = p
      · subst h
        simp [hq2]
      · simp [h]

theorem fsGet_ne_none_iff (fs : FS) (p : DirPath) :
    fsGet fs p ≠ none ↔ p ∈ fs.map Prod.fst := by
  induction fs with
  | nil => simp [fsGet]
  | cons kv fs ih =>
    obtain ⟨q, n⟩ := kv
    rw [fsGet_cons]
    by_cases h : q = p
    · subst h
      have hb : (q == q) = true := by simp
      rw [hb]
      simp only [if_true, List.map_cons, List.mem_cons]
      constructor
      · intro _; exact Or.inl trivial
      · intro _; exact Option.some_ne_none n
    · have : (q == p) = false := by simp [h]
      rw [this]
      simp only [Bool.false_eq_true, if_false, List.map_cons, List.mem_cons]
      rw [ih]
      constructor
      · intro hm; exact Or.inr hm
      · intro hm
        rcases hm with hm | hm
        · exact absurd hm.symm h
        · exact hm

/-! ### C1 / C2 / C7 / C10 -/

/-- C1: when the destination app directory already exists as a directory and
`overwrite` is `False`, `build_report` fails with the distinct
"already exists" client error and leaves the filesystem (in particular the
contents of the existing directory) completely unchanged. -/
theorem buildReport_exists_no_overwrite_precondition
    (blocks : Blocks) (bn : String) (dest : DirPath) (fmt : Option AppFormatting)
    (fs : FS) (h : isDirFS fs (bn :: dest) = true) :
    build_report blocks bn dest fmt false fs
      = (.error (.dpClientError (appExistsMsg (bn :: dest))), fs) := by
  simp [build_report, h]

theorem buildReport_exists_no_overwrite_precondition_witness :
    build_report [Block.text "x"] "app" ["d"] none false
        [(["app", "d"], FSNode.dir), (["d"], FSNode.dir)]
      = (.error (.dpClientError (appExistsMsg ["app", "d"])),
         [(["app", "d"], FSNode.dir), (["d"], FSNode.dir)]) :=
  buildReport_exists_no_overwrite_precondition _ _ _ _ _ (by decide)

/-- C2 counterexample: `build_report` does not construct its `ViewState` with
the `DirectFileEntry` strategy, refuting the prescription of the operation table at
a concrete input. -/
theorem buildReport_strategy_not_direct :
    (buildReportViewState [Block.text "x"] ["assets", "app"]).file_entry_klass
      ≠ FileEntryKlass.DirectFileEntry := by
  decide

/-- C2 (amended): `build_report` constructs its `ViewState` with the
`GzipTmpFileEntry` (compressed temporary-file) strategy, with `dir_path` set
to the destination assets directory. -/
theorem buildReport_strategy_gzip (blocks : Blocks) (assetsDir : DirPath) :
    (buildReportViewState blocks assetsDir).file_entry_klass
        = FileEntryKlass.GzipTmpFileEntry ∧
      (buildReportViewState blocks assetsDir).dir_path = some assetsDir :=
  ⟨rfl, rfl⟩

/-- C7: every public operation fixes its file-entry strategy at `ViewState`
construction (build and upload use `GzipTmpFileEntry`, save and stringify use
`B64FileEntry`) and runs `PreProcessView` first, then `ConvertXML`, then
exactly one terminal export stage. -/
theorem publicOps_fixed_strategy_and_stage_order :
    (∀ blocks assetsDir,
        (buildReportViewState blocks assetsDir).file_entry_klass
          = FileEntryKlass.GzipTmpFileEntry) ∧
    (∀ blocks,
        (saveReportViewState blocks).file_entry_klass = FileEntryKlass.B64FileEntry) ∧
    (∀ blocks,
        (stringifyViewState blocks).file_entry_klass = FileEntryKlass.B64FileEntry) ∧
    (∀ blocks,
        (uploadReportViewState blocks).file_entry_klass
          = FileEntryKlass.GzipTmpFileEntry) ∧
    ([build_report_stages, save_report_stages,
      stringify_report_stages, upload_report_stages].all
        (fun l =>
          decide (l.take 2 = [StageTag.preProcessView, StageTag.convertXML])
            && decide ((l.drop 2).length = 1)
            && (l.drop 2).all StageTag.isTerminal) = true) :=
  ⟨fun _ _ => rfl, fun _ => rfl, fun _ => rfl, fun _ => rfl, by decide⟩

/-- C10: the upload kwargs dictionary is not a function of the call arguments
alone: with formatting supplied, the `style_header` field wraps the CSS in a
style tag exactly when the ambient `config.is_org` flag is set, so two calls
with identical arguments produce different payload dictionaries under
different ambient configuration. -/
theorem uploadReport_payload_depends_on_config :
    (uploadKwargs "n" "" "" none none none (some ⟨"full", "bodycss", false⟩) ⟨true⟩
        ≠ uploadKwargs "n" "" "" none none none (some ⟨"full", "bodycss", false⟩) ⟨false⟩) ∧
    (∀ f : AppFormatting, ∀ cfg : Config,
        styleHeaderVal cfg f
          = if cfg.is_org then "<style type=\"text/css\">\n" ++ f.to_css ++ "\n</style>"
            else f.to_css) :=
  ⟨by decide, fun _ _ => rfl⟩

end Datapane

namespace Datapane

/-! ### C9: destination exists as a regular file -/

theorem mkdirParents_parent_file (fs : FS) (c n : String) (d : DirPath)
    (content : String)
    (h1 : fsGet fs (c :: n :: d) = none)
    (h2 : fsGet fs (n :: d) = some (FSNode.file content)) :
    mkdirParents fs (c :: n :: d) = (some .notADirectory, fs) := by
  show mkdirParentsAux ((c :: n :: d).length + 1) fs (c :: n :: d) false
      = (some .notADirectory, fs)
  rw [show (c :: n :: d).length + 1 = (d.length + 2) + 1 by simp]
  rw [mkdirParentsAux]
  simp [osMkdir, h1, h2]

/-- C9: when `<dest>/<name>` exists as a regular file, `is_dir` is `False`, so
neither the overwrite removal nor the "already exists" client error triggers;
instead the creation of the `assets` subdirectory fails with a raw filesystem
error, regardless of the overwrite flag, leaving the filesystem unchanged. -/
theorem buildReport_dest_file_raw_os_error
    (blocks : Blocks) (bn : String) (dest : DirPath) (fmt : Option AppFormatting)
    (ov : Bool) (fs : FS) (content : String)
    (hfile : fsGet fs (bn :: dest) = some (FSNode.file content))
    (hassets : fsGet fs ("assets" :: bn :: dest) = none) :
    build_report blocks bn dest fmt ov fs
      = (.error (.osError .notADirectory), fs) := by
  have hdir : isDirFS fs (bn :: dest) = false := by
    simp [isDirFS, hfile]
  rw [build_report]
  simp only [hdir, Bool.false_and, Bool.false_eq_true, if_false]
  rw [buildInner, mkdirParents_parent_file fs "assets" bn dest content hassets hfile]

theorem buildReport_dest_file_raw_os_error_witness :
    build_report [Block.text "x"] "app" ["d"] none true
        [(["app", "d"], FSNode.file "oops"), (["d"], FSNode.dir)]
      = (.error (.osError .notADirectory),
         [(["app", "d"], FSNode.file "oops"), (["d"], FSNode.dir)]) :=
  buildReport_dest_file_raw_os_error _ _ _ _ _ _ "oops" (by decide) (by decide)

/-! ### C6: stringify is inline and touches no filesystem state -/

/-- C6: `stringify_report` constructs its `ViewState` with the inline
(`B64FileEntry`) strategy, leaves the filesystem completely unchanged, and on
a well-formed tree returns the rendered HTML document as a string. -/
theorem stringifyReport_inline_and_pure
    (blocks : Blocks) (docName : Option String) (fmt : Option AppFormatting)
    (fs : FS) :
    (stringifyViewState blocks).file_entry_klass = FileEntryKlass.B64FileEntry ∧
    (stringify_report blocks docName fmt fs).2 = fs ∧
    (blocks ≠ [] →
      (stringify_report blocks docName fmt fs).1
        = .ok (renderHTML docName fmt (docTokens FileEntryKlass.B64FileEntry blocks))) := by
  cases blocks with
  | nil =>
    exact ⟨rfl, rfl, fun h => absurd rfl h⟩
  | cons b bs =>
    exact ⟨rfl, rfl, fun _ => rfl⟩

theorem stringifyReport_inline_and_pure_witness :
    (stringifyViewState [Block.text "hi", Block.asset [1, 2]]).file_entry_klass
        = FileEntryKlass.B64FileEntry ∧
    (stringify_report [Block.text "hi", Block.asset [1, 2]] none none []).2 = [] ∧
    ([Block.text "hi", Block.asset [1, 2]] ≠ ([] : Blocks) →
      (stringify_report [Block.text "hi", Block.asset [1, 2]] none none []).1
        = .ok (renderHTML none none
            (docTokens FileEntryKlass.B64FileEntry [Block.text "hi", Block.asset [1, 2]]))) :=
  stringifyReport_inline_and_pure [Block.text "hi", Block.asset [1, 2]] none none []

/-! ### C8: upload payload consistency -/

/-- The consistency property of an upload outcome: whenever a payload is
returned, the attachment names are exactly the references the document
embeds. -/
def payloadConsistent : Except PErr UploadPayload → Prop
| .ok p => ∀ r, r ∈ docRefs p.document ↔ r ∈ p.attachments.map (fun e => e.name)
| .error _ => True

/-- C8: every payload `upload_report` hands to the remote post is consistent:
the attachment list contains exactly the set of asset references embedded in
the serialized document (a violation is turned into a consistency failure
before the payload is returned). -/
theorem uploadReport_payload_consistent
    (blocks : Blocks) (dn desc su : String) (vis : Option Bool)
    (tags : Option (List String)) (proj : Option String)
    (fmt : Option AppFormatting) (ow : Bool) (cfg : Config) (fs : FS) :
    payloadConsistent
      (upload_report blocks dn desc su vis tags proj fmt ow cfg fs).1 := by
  cases blocks with
  | nil => exact trivial
  | cons b bs =>
    by_cases hc :
        sameRefSet
          (docRefs (docTokens FileEntryKlass.GzipTmpFileEntry (b :: bs)))
          ((storeEntries FileEntryKlass.GzipTmpFileEntry
              (assetPayloads (b :: bs))).map (fun e => e.name)) = true
    · have hres :
          (upload_report (b :: bs) dn desc su vis tags proj fmt ow cfg fs).1
            = .ok
                { document := docTokens FileEntryKlass.GzipTmpFileEntry (b :: bs)
                  attachments :=
                    storeEntries FileEntryKlass.GzipTmpFileEntry (assetPayloads (b :: bs))
                  kwargs := uploadKwargs dn desc su vis tags proj fmt cfg
                  overwrite := ow } := by
        simp [upload_report, runStages, upload_report_stages, interpStage,
          stagePreProcessView, stageConvertXML, stagePreUploadProcessor,
          uploadReportViewState, List.foldl, hc]
      rw [hres]
      obtain ⟨hsub1, hsub2⟩ := Bool.and_eq_true_iff.mp hc
      have h1 := of_decide_eq_true hsub1
      have h2 := of_decide_eq_true hsub2
      exact fun r => ⟨fun hr => h1 r hr, fun hr => h2 r hr⟩
    · have hc2 :
          sameRefSet
            (docRefs (docTokens FileEntryKlass.GzipTmpFileEntry (b :: bs)))
            ((storeEntries FileEntryKlass.GzipTmpFileEntry
                (assetPayloads (b :: bs))).map (fun e => e.name)) = false := by
        revert hc
        cases sameRefSet
          (docRefs (docTokens FileEntryKlass.GzipTmpFileEntry (b :: bs)))
          ((storeEntries FileEntryKlass.GzipTmpFileEntry
              (assetPayloads (b :: bs))).map (fun e => e.name)) <;> simp
      have hres :
          (upload_report (b :: bs) dn desc su vis tags proj fmt ow cfg fs).1
            = .error .consistencyError := by
        simp [upload_report, runStages, upload_report_stages, interpStage,
          stagePreProcessView, stageConvertXML, stagePreUploadProcessor,
          uploadReportViewState, List.foldl, hc2]
      rw [hres]
      exact trivial

theorem uploadReport_payload_consistent_witness :
    payloadConsistent
      (upload_report [Block.text "hi", Block.asset [1, 2, 3]] "n" "" "" none none
        none none false ⟨true⟩ []).1 :=
  uploadReport_payload_consistent [Block.text "hi", Block.asset [1, 2, 3]] "n" "" ""
    none none none none false ⟨true⟩ []

end Datapane

namespace Datapane

/-! ### C5: empty metadata fields are stripped from the upload payload -/

theorem kwLookup_cons (k2 : String) (v2 : PyVal) (xs : List (String × PyVal))
    (k : String) :
    kwLookup k ((k2, v2) :: xs) = if k2 == k then some v2 else kwLookup k xs := by
  by_cases h : k2 == k <;> simp [kwLookup, List.find?, h]

theorem kwLookup_dropEmpty_none (k : String) (xs : List (String × PyVal))
    (h : ∀ v, (k, v) ∈ xs → v.isEmptyVal = true) :
    kwLookup k (dict_drop_empty xs) = none := by
  induction xs with
  | nil => rfl
  | cons kv xs ih =>
    obtain ⟨k2, v2⟩ := kv
    by_cases he : v2.isEmptyVal = true
    · have hstep : dict_drop_empty ((k2, v2) :: xs) = dict_drop_empty xs := by
        simp [dict_drop_empty, List.filter, he]
      rw [hstep]
      exact ih (fun v hv => h v (List.mem_cons_of_mem _ hv))
    · have he2 : v2.isEmptyVal = false := by
        revert he; cases v2.isEmptyVal <;> simp
      have hstep : dict_drop_empty ((k2, v2) :: xs) = (k2, v2) :: dict_drop_empty xs := by
        simp [dict_drop_empty, List.filter, he2]
      rw [hstep]
      have hk : (k2 == k) = false := by
        by_cases hkk : k2 = k
        · subst hkk
          exact absurd (h v2 (List.mem_cons_self _ _)) he
        · simp [hkk]
      rw [kwLookup_cons, hk]
      simp only [Bool.false_eq_true, if_false]
      exact ih (fun v hv => h v (List.mem_cons_of_mem _ hv))

/-- C5: every optional metadata field of `upload_report` whose value is empty
or absent (empty description, empty source_url, `None` publicly_visible,
absent or empty tags list, `None` project) is omitted from the posted kwargs
dictionary entirely. -/
theorem uploadReport_empty_fields_omitted
    (dn desc su : String) (vis : Option Bool) (tags : Option (List String))
    (proj : Option String) (fmt : Option AppFormatting) (cfg : Config) :
    (desc = "" →
      kwLookup "description" (uploadKwargs dn desc su vis tags proj fmt cfg) = none) ∧
    (su = "" →
      kwLookup "source_url" (uploadKwargs dn desc su vis tags proj fmt cfg) = none) ∧
    (vis = none →
      kwLookup "publicly_visible" (uploadKwargs dn desc su vis tags proj fmt cfg) = none) ∧
    (tags = none ∨ tags = some [] →
      kwLookup "tags" (uploadKwargs dn desc su vis tags proj fmt cfg) = none) ∧
    (proj = none →
      kwLookup "project" (uploadKwargs dn desc su vis tags proj fmt cfg) = none) := by
  refine ⟨?_, ?_, ?_, ?_, ?_⟩
  · intro h
    apply kwLookup_dropEmpty_none
    intro v hv
    cases fmt <;> simp [uploadKwargsRaw] at hv <;> subst hv <;>
      simp only [PyVal.isEmptyVal, h] <;> decide
  · intro h
    apply kwLookup_dropEmpty_none
    intro v hv
    cases fmt <;> simp [uploadKwargsRaw] at hv <;> subst hv <;>
      simp only [PyVal.isEmptyVal, h] <;> decide
  · intro h
    subst h
    apply kwLookup_dropEmpty_none
    intro v hv
    cases fmt <;> simp [uploadKwargsRaw] at hv <;> subst hv <;> simp [PyVal.isEmptyVal]
  · intro h
    have htags : tags.getD [] = [] := by
      rcases h with h | h <;> subst h <;> rfl
    apply kwLookup_dropEmpty_none
    intro v hv
    cases fmt <;> simp [uploadKwargsRaw] at hv <;> subst hv <;>
      simp [PyVal.isEmptyVal, htags]
  · intro h
    subst h
    apply kwLookup_dropEmpty_none
    intro v hv
    cases fmt <;> simp [uploadKwargsRaw] at hv <;> subst hv <;> simp [PyVal.isEmptyVal]

theorem uploadReport_empty_fields_omitted_witness :
    (("" : String) = "" →
      kwLookup "description" (uploadKwargs "n" "" "" none none none none ⟨false⟩) = none) ∧
    (("" : String) = "" →
      kwLookup "source_url" (uploadKwargs "n" "" "" none none none none ⟨false⟩) = none) ∧
    ((none : Option Bool) = none →
      kwLookup "publicly_visible" (uploadKwargs "n" "" "" none none none none ⟨false⟩) = none) ∧
    ((none : Option (List String)) = none ∨ (none : Option (List String)) = some [] →
      kwLookup "tags" (uploadKwargs "n" "" "" none none none none ⟨false⟩) = none) ∧
    ((none : Option String) = none →
      kwLookup "project" (uploadKwargs "n" "" "" none none none none ⟨false⟩) = none) :=
  uploadReport_empty_fields_omitted "n" "" "" none none none none ⟨false⟩

end Datapane

namespace Datapane

/-! ### Shared lemmas for the build_report filesystem theorems -/

theorem cons_beq_self_false (x : String) (p : DirPath) :
    ((x :: p : DirPath) == p) = false := by
  apply beq_eq_false_iff_ne.mpr
  intro h
  have := congrArg List.length h
  simp at this

theorem pathInside_cons (b : DirPath) (x : String) :
    pathInside b (x :: b) = true := by
  rw [pathInside, pathInside_self]
  simp

theorem mkdirParentsAux_fresh_two (fuel : Nat) (fs : FS) (c n : String)
    (d : DirPath)
    (h1 : fsGet fs (c :: n :: d) = none)
    (h2 : fsGet fs (n :: d) = none)
    (h3 : isDirFS fs d = true) :
    mkdirParentsAux (fuel + 1 + 1) fs (c :: n :: d) false
      = (none, (c :: n :: d, FSNode.dir) :: (n :: d, FSNode.dir) :: fs) := by
  have hmk1 : osMkdir fs (c :: n :: d) = .error .fileNotFound := by
    simp [osMkdir, h1, h2]
  have hmk2 : osMkdir fs (n :: d) = .ok ((n :: d, FSNode.dir) :: fs) := by
    cases d with
    | nil => simp [osMkdir, h2]
    | cons x ds =>
      have hd : fsGet fs (x :: ds) = some FSNode.dir := by
        have h4 := h3
        simp [isDirFS] at h4
        exact h4
      simp [osMkdir, h2, hd]
  have hne : ((n :: d : DirPath) == (c :: n :: d)) = false := by
    apply beq_eq_false_iff_ne.mpr
    intro h
    have := congrArg List.length h
    simp at this
  have hmk3 : osMkdir ((n :: d, FSNode.dir) :: fs) (c :: n :: d)
      = .ok ((c :: n :: d, FSNode.dir) :: (n :: d, FSNode.dir) :: fs) := by
    simp [osMkdir, fsGet_cons, hne, h1]
  rw [mkdirParentsAux, hmk1]
  simp only [mkdirParentsAux, hmk2, hmk3]

theorem mkdirParents_fresh_two (fs : FS) (c n : String) (d : DirPath)
    (h1 : fsGet fs (c :: n :: d) = none)
    (h2 : fsGet fs (n :: d) = none)
    (h3 : isDirFS fs d = true) :
    mkdirParents fs (c :: n :: d)
      = (none, (c :: n :: d, FSNode.dir) :: (n :: d, FSNode.dir) :: fs) := by
  show mkdirParentsAux ((c :: n :: d).length + 1) fs (c :: n :: d) false = _
  rw [show (c :: n :: d).length + 1 = (d.length + 1) + 1 + 1 by simp]
  exact mkdirParentsAux_fresh_two (d.length + 1) fs c n d h1 h2 h3

/-! ### C3: a stage failure after directory creation leaves it half-written -/

/-- C3 counterexample: on a concrete input whose pipeline fails (an invalid
empty view) after the destination directory has been created, `build_report`
propagates the error while the newly created `<dest>/<name>` directory and
its `assets` subdirectory remain on disk — no temporary-location indirection
and no cleanup happens, refuting the claim at this input. -/
theorem buildReport_failure_halfwritten_cex :
    (build_report [] "app" ["d"] none false [(["d"], FSNode.dir)]).1
        = .error (.stageErr (.validationError "empty view")) ∧
    fsGet (build_report [] "app" ["d"] none false [(["d"], FSNode.dir)]).2
        ["app", "d"] = some FSNode.dir ∧
    fsGet (build_report [] "app" ["d"] none false [(["d"], FSNode.dir)]).2
        ["assets", "app", "d"] = some FSNode.dir :=
  ⟨rfl, rfl, rfl⟩

/-- C3 (amended): when a pipeline stage fails after the destination app
directory has been created, `build_report` performs no cleanup: the error
propagates and the freshly created `<dest>/<name>` directory and its
`assets` subdirectory are left on disk. -/
theorem buildReport_failure_leaves_created_dir
    (bn : String) (dest : DirPath) (fmt : Option AppFormatting) (fs : FS)
    (h1 : fsGet fs ("assets" :: bn :: dest) = none)
    (h2 : fsGet fs (bn :: dest) = none)
    (h3 : isDirFS fs dest = true) :
    (build_report [] bn dest fmt false fs).1
        = .error (.stageErr (.validationError "empty view")) ∧
    fsGet (build_report [] bn dest fmt false fs).2 (bn :: dest)
        = some FSNode.dir ∧
    fsGet (build_report [] bn dest fmt false fs).2 ("assets" :: bn :: dest)
        = some FSNode.dir := by
  have hdir : isDirFS fs (bn :: dest) = false := by
    simp [isDirFS, h2]
  have hbuild : build_report [] bn dest fmt false fs
      = (.error (.stageErr (.validationError "empty view")),
         ("assets" :: bn :: dest, FSNode.dir) :: (bn :: dest, FSNode.dir) :: fs) := by
    rw [build_report]
    simp only [hdir, Bool.false_and, Bool.false_eq_true, if_false]
    rw [buildInner, mkdirParents_fresh_two fs "assets" bn dest h1 h2 h3]
    rfl
  rw [hbuild]
  refine ⟨rfl, ?_, ?_⟩
  · rw [fsGet_cons, cons_beq_self_false, fsGet_cons]
    simp
  · rw [fsGet_cons]
    simp

theorem buildReport_failure_leaves_created_dir_witness :
    (build_report [] "app" ["e"] none false [(["e"], FSNode.dir)]).1
        = .error (.stageErr (.validationError "empty view")) ∧
    fsGet (build_report [] "app" ["e"] none false [(["e"], FSNode.dir)]).2
        ["app", "e"] = some FSNode.dir ∧
    fsGet (build_report [] "app" ["e"] none false [(["e"], FSNode.dir)]).2
        ["assets", "app", "e"] = some FSNode.dir :=
  buildReport_failure_leaves_created_dir "app" ["e"] none [(["e"], FSNode.dir)]
    (by decide) (by decide) (by decide)

end Datapane

namespace Datapane

/-! ### C4: overwrite fully removes the old directory before writing -/

/-- The paths `build_report` itself generates under the app directory: the
directory, its `assets` subdirectory, the HTML shell, and one asset file per
registered entry. -/
def buildGenerated (appDir : DirPath) (blocks : Blocks) : List DirPath :=
  appDir :: ("assets" :: appDir) :: ("index.html" :: appDir) ::
    (storeEntries FileEntryKlass.GzipTmpFileEntry (assetPayloads blocks)).map
      (fun e => e.name :: "assets" :: appDir)

theorem moveTmpEntries_keys (entries : List StoreEntry) (ad : DirPath) (fs : FS)
    (p : DirPath) (h : fsGet (moveTmpEntries entries ad fs) p ≠ none) :
    p ∈ entries.map (fun e => e.name :: ad) ∨
      ((∀ e ∈ entries, e.tmpPath ≠ some p) ∧ fsGet fs p ≠ none) := by
  rw [fsGet_ne_none_iff] at h
  unfold moveTmpEntries at h
  rw [List.map_append, List.mem_append] at h
  rcases h with h | h
  · left
    rw [List.map_map] at h
    simpa using h
  · right
    rw [List.mem_map] at h
    obtain ⟨kv, hkv, hp⟩ := h
    rw [List.mem_filter] at hkv
    obtain ⟨hmem, hq⟩ := hkv
    refine ⟨?_, ?_⟩
    · intro e he
      have hall := List.all_eq_true.mp hq e he
      have h2 := of_decide_eq_true hall
      rw [hp] at h2
      exact h2
    · rw [fsGet_ne_none_iff]
      exact hp ▸ List.mem_map_of_mem Prod.fst hmem

theorem registerWrites_gzip_key (dirPath : Option DirPath)
    (assets : List (List Nat)) (kv : DirPath × FSNode)
    (h : kv ∈ registerWrites FileEntryKlass.GzipTmpFileEntry dirPath assets) :
    ∃ i bs, (i, bs) ∈ assets.enum ∧ kv.1 = tmpStorePath i := by
  unfold registerWrites at h
  rw [List.mem_map] at h
  obtain ⟨q, hq, he⟩ := h
  exact ⟨q.1, q.2, hq, by rw [← he]⟩

theorem storeEntries_gzip_tmp (assets : List (List Nat)) (i : Nat)
    (bs : List Nat) (h : (i, bs) ∈ assets.enum) :
    ∃ e ∈ storeEntries FileEntryKlass.GzipTmpFileEntry assets,
      e.tmpPath = some (tmpStorePath i) := by
  refine ⟨mkEntry FileEntryKlass.GzipTmpFileEntry i bs, ?_, rfl⟩
  unfold storeEntries
  exact List.mem_map_of_mem _ h

/-- C4: when the destination app directory already exists and `overwrite` is
set, the old tree is fully removed (`rmtree`) before anything is written, so
`build_report` succeeds and every path surviving under the app directory is
one generated by this run — no residue of the prior contents remains. -/
theorem buildReport_overwrite_no_residue
    (blocks : Blocks) (bn : String) (dest : DirPath) (fmt : Option AppFormatting)
    (fs : FS)
    (hdir : isDirFS fs (bn :: dest) = true)
    (hdest : isDirFS fs dest = true)
    (hblocks : blocks ≠ []) :
    (build_report blocks bn dest fmt true fs).1 = .ok () ∧
    ∀ p, pathInside (bn :: dest) p = true →
      fsGet (build_report blocks bn dest fmt true fs).2 p ≠ none →
      p ∈ buildGenerated (bn :: dest) blocks := by
  obtain ⟨b, bs, rfl⟩ : ∃ b bs, blocks = b :: bs := by
    cases blocks with
    | nil => exact absurd rfl hblocks
    | cons b bs => exact ⟨b, bs, rfl⟩
  have h1 : fsGet (rmtree fs (bn :: dest)) ("assets" :: bn :: dest) = none := by
    rw [fsGet_rmtree, pathInside_cons]
    simp
  have h2 : fsGet (rmtree fs (bn :: dest)) (bn :: dest) = none := by
    rw [fsGet_rmtree, pathInside_self]
    simp
  have h3 : isDirFS (rmtree fs (bn :: dest)) dest = true := by
    have hno : pathInside (bn :: dest) dest = false := pathInside_cons_self bn dest
    have : isDirFS (rmtree fs (bn :: dest)) dest = isDirFS fs dest := by
      simp [isDirFS, fsGet_rmtree, hno]
    rw [this, hdest]
  have hbuild : build_report (b :: bs) bn dest fmt true fs
      = (.ok (),
         ("index.html" :: bn :: dest,
           FSNode.file
             (renderHTML (some bn) fmt
               (docTokens FileEntryKlass.GzipTmpFileEntry (b :: bs)))) ::
         moveTmpEntries
           (storeEntries FileEntryKlass.GzipTmpFileEntry (assetPayloads (b :: bs)))
           ("assets" :: bn :: dest)
           (registerWrites FileEntryKlass.GzipTmpFileEntry
               (some ("assets" :: bn :: dest)) (assetPayloads (b :: bs))
             ++ ("assets" :: bn :: dest, FSNode.dir)
                :: (bn :: dest, FSNode.dir) :: rmtree fs (bn :: dest))) := by
    rw [build_report]
    simp only [hdir, Bool.and_self, Bool.true_and, eq_self_iff_true, if_true]
    rw [buildInner, mkdirParents_fresh_two (rmtree fs (bn :: dest)) "assets" bn dest h1 h2 h3]
    rfl
  refine ⟨by rw [hbuild], ?_⟩
  intro p hin hne
  rw [hbuild] at hne
  rw [fsGet_ne_none_iff, List.map_cons, List.mem_cons] at hne
  rcases hne with heq | hne
  · rw [heq]
    exact List.mem_cons.mpr (Or.inr (List.mem_cons.mpr (Or.inr
      (List.mem_cons.mpr (Or.inl rfl)))))
  · have hm : fsGet
        (moveTmpEntries
          (storeEntries FileEntryKlass.GzipTmpFileEntry (assetPayloads (b :: bs)))
          ("assets" :: bn :: dest)
          (registerWrites FileEntryKlass.GzipTmpFileEntry
              (some ("assets" :: bn :: dest)) (assetPayloads (b :: bs))
            ++ ("assets" :: bn :: dest, FSNode.dir)
               :: (bn :: dest, FSNode.dir) :: rmtree fs (bn :: dest))) p ≠ none :=
      (fsGet_ne_none_iff _ _).mpr hne
    rcases moveTmpEntries_keys _ _ _ _ hm with hA | ⟨hNoTmp, hB⟩
    · exact List.mem_cons.mpr (Or.inr (List.mem_cons.mpr (Or.inr
        (List.mem_cons.mpr (Or.inr hA)))))
    · rw [fsGet_ne_none_iff, List.map_append, List.mem_append] at hB
      rcases hB with hW | h3m
      · exfalso
        rw [List.mem_map] at hW
        obtain ⟨kv, hkv, hp⟩ := hW
        obtain ⟨i, bs2, hienum, hkey⟩ := registerWrites_gzip_key _ _ _ hkv
        obtain ⟨e, heE, htmp⟩ := storeEntries_gzip_tmp _ _ _ hienum
        apply hNoTmp e heE
        rw [htmp, ← hkey, hp]
      · rw [List.map_cons, List.map_cons, List.mem_cons, List.mem_cons] at h3m
        rcases h3m with heq | heq | hmem
        · rw [heq]
          exact List.mem_cons.mpr (Or.inr (List.mem_cons.mpr (Or.inl rfl)))
        · rw [heq]
          exact List.mem_cons.mpr (Or.inl rfl)
        · exfalso
          have : fsGet (rmtree fs (bn :: dest)) p ≠ none :=
            (fsGet_ne_none_iff _ _).mpr hmem
          rw [fsGet_rmtree, hin] at this
          exact this rfl

theorem buildReport_overwrite_no_residue_witness :
    (build_report [Block.asset [7]] "app" ["d"] none true
        [(["d"], FSNode.dir), (["app", "d"], FSNode.dir),
         (["old.txt", "app", "d"], FSNode.file "junk")]).1 = .ok () ∧
    fsGet (build_report [Block.asset [7]] "app" ["d"] none true
        [(["d"], FSNode.dir), (["app", "d"], FSNode.dir),
         (["old.txt", "app", "d"], FSNode.file "junk")]).2
      ["old.txt", "app", "d"] = none := by
  have h := buildReport_overwrite_no_residue [Block.asset [7]] "app" ["d"] none
      [(["d"], FSNode.dir), (["app", "d"], FSNode.dir),
       (["old.txt", "app", "d"], FSNode.file "junk")]
      (by decide) (by decide) (by decide)
  refine ⟨h.1, ?_⟩
  cases hfs : fsGet (build_report [Block.asset [7]] "app" ["d"] none true
      [(["d"], FSNode.dir), (["app", "d"], FSNode.dir),
       (["old.txt", "app", "d"], FSNode.file "junk")]).2
      ["old.txt", "app", "d"] with
  | none => rfl
  | some n =>
    have hmem := h.2 ["old.txt", "app", "d"] (by decide)
      (by rw [hfs]; exact Option.some_ne_none n)
    exact absurd hmem (by decide)

end Datapane
